import Mathlib

/-!
A shallow embedding of the gokit structured-logging core
(`xlog/slogger.go`, `xlog/rotator.go`, `metrics/sample/sample.go`,
`xlog/logger.go`), together with theorems settling the spec claims.

Machine integers are embedded as `Nat`/`Int`/`Rat` with explicit bounds
where overflow matters; channels are embedded as FIFO lists and the
goroutine interleavings as an explicit step relation.
-/

namespace Gokit

/-! ## Log levels (`xlog/logger.go`)

Go's `LogLevel` is a string; `levelOrder` is a map sending the five level
constants to 0..4 (an unlisted string would map to the zero value 0; the
claims only involve the five constants, so the embedding is the inductive
of those five). -/

inductive LogLevel where
  | Debug
  | Info
  | Warn
  | Error
  | Fatal
deriving DecidableEq, Repr

/-- Embeds `levelOrder` from `xlog/logger.go`: Debug 0, Info 1, Warn 2, Error 3, Fatal 4. -/
def levelOrder : LogLevel → ℕ
  | .Debug => 0
  | .Info => 1
  | .Warn => 2
  | .Error => 3
  | .Fatal => 4

/-- Embeds `LogLevel.IsLowerOrEqualThan`: `levelOrder[l] <= levelOrder[other]`. -/
def LogLevel.IsLowerOrEqualThan (l other : LogLevel) : Bool :=
  decide (levelOrder l ≤ levelOrder other)

/-- Embeds `LogLevel.IsHighThan`: `levelOrder[l] > levelOrder[other]`. -/
def LogLevel.IsHighThan (l other : LogLevel) : Bool :=
  decide (levelOrder other < levelOrder l)

/-! ## Rate sampler (`metrics/sample/sample.go`)

`RateSampler` stores `uint64(rate * (1 << 63))` and accepts a draw iff
`rand.Uint64() < rate`.  `rand.Uint64()` is uniform over `[0, 2^64)`.
The float64 product `rate * (1 << 63)` is exact for every dyadic rate with
at most 52 mantissa bits (in particular for 0, 1/2 and 1, the rates the
theorems evaluate), and for rate ∈ [0,1] the result is in uint64 range, so
the conversion is Go-defined truncation toward zero, i.e. the floor. -/

structure RateSampler where
  rate : ℕ
deriving DecidableEq, Repr

/-- Embeds `uint64(rate * (1 << 63))` for rate ∈ [0,1] (see the section comment). -/
def rateToUint64 (rate : ℚ) : ℕ :=
  (Int.floor (rate * 2 ^ 63)).toNat

/-- Embeds `NewRateSampler`. -/
def NewRateSampler (rate : ℚ) : RateSampler :=
  { rate := rateToUint64 rate }

/-- Embeds `RateSampler.Sample`, with the `rand.Uint64()` draw made explicit
(`draw < 2^64`): `rand.Uint64() < s.rate`. -/
def RateSampler.Sample (s : RateSampler) (draw : ℕ) : Bool :=
  decide (draw < s.rate)

/-- Embeds `RateSampler.SetRate`. -/
def RateSampler.SetRate (_s : RateSampler) (rate : ℚ) : RateSampler :=
  { rate := rateToUint64 rate }

/-- Embeds `RateSampler.GetRate`: `float64(rate) / (1 << 63)`. -/
def RateSampler.GetRate (s : RateSampler) : ℚ :=
  (s.rate : ℚ) / 2 ^ 63

/-! ## Jitter sampler (`metrics/sample/sample.go`)

`JitterSampler.Sample` reads the clock, rejects when `now - lastSample <
jitter`, otherwise applies the rate check and on acceptance stores `now`
into `lastSample`.  Time instants and durations are embedded as `ℤ`
(nanoseconds); the `rand.Float64() < rate` outcome is an oracle boolean, so
the theorems hold for every rate, including rates changed mid-trace. -/

/-- One `JitterSampler.Sample` call: given the jitter, the stored
`lastSample`, the clock value `now` and the rate-check outcome, returns
(accepted, new `lastSample`). -/
def jitterSampleStep (jitter lastSample now : ℤ) (rateOK : Bool) : Bool × ℤ :=
  if now - lastSample < jitter then (false, lastSample)
  else if rateOK then (true, now) else (false, lastSample)

/-- The times at which a sequential trace of `Sample` calls returns true:
each trace element is (clock value, rate-check outcome). -/
def jitterAcceptedTimes (jitter : ℤ) : ℤ → List (ℤ × Bool) → List ℤ
  | _, [] => []
  | lastSample, (now, rateOK) :: rest =>
      let r := jitterSampleStep jitter lastSample now rateOK
      if r.1 then now :: jitterAcceptedTimes jitter r.2 rest
      else jitterAcceptedTimes jitter r.2 rest

/-! ## The slogger record and producer path (`xlog/slogger.go`)

`slog.Record` is embedded by the fields the slogger inspects or builds:
timestamp, numeric level, message and attribute list.  `slog.Record{}` (the
zero value the consumer injects as its flush acknowledgment) has time 0,
level 0, empty message and no attributes. -/

structure SRecord where
  time : ℤ
  lvl : ℕ
  msg : String
  attrs : List (String × String)
deriving DecidableEq, Repr

/-- Embeds the zero value `slog.Record` (all fields zero). -/
def emptyRecord : SRecord :=
  { time := 0, lvl := 0, msg := "", attrs := [] }

/-- The sentinel message `Flush` injects and `processLogs` intercepts. -/
def flushSignal : String := "FLUSH_SIGNAL"

/-- The record that `SlogLogger.log` builds:
`slog.NewRecord(time.Now(), slog.Level(levelOrder[level]), msg, 0)` plus
the fields as attributes. -/
def mkRecord (now : ℤ) (level : LogLevel) (msg : String)
    (fields : List (String × String)) : SRecord :=
  { time := now, lvl := levelOrder level, msg := msg, attrs := fields }

/-- What `SlogLogger.log` does with an event before the enqueue select:
return early on the level filter, return early when the sampler declines a
Warn-or-below event, or emit the built record toward the buffer. -/
inductive LogOutcome where
  | filtered
  | sampledOut
  | emit (r : SRecord)
deriving DecidableEq, Repr

/-- The filter/sampler portion of `SlogLogger.log` (lines 161–181): the
current level and the sampler's `Sample()` outcome are explicit inputs. -/
def slogLog (currentLevel level : LogLevel) (sampleOK : Bool) (now : ℤ)
    (msg : String) (fields : List (String × String)) : LogOutcome :=
  if currentLevel.IsHighThan level then .filtered
  else if level.IsLowerOrEqualThan .Warn && !sampleOK then .sampledOut
  else .emit (mkRecord now level msg fields)

/-! ## The consumer and the channels (`xlog/slogger.go`)

The buffer channel, the consumer goroutine (`processLogs`), the `done`
channel and a `Flush` caller are embedded as an explicit state with a step
relation; a channel is a FIFO list bounded by the configured capacity
(`AsyncBufferSize`, which is also the batch-flush threshold the consumer
compares against).

`Flush` makes a fresh local channel `flushDone`, sends the sentinel record
into `buffer` and then blocks receiving from `flushDone`.  `flushDone`
is embedded as `flushDoneSignaled` (a send on it would set the flag) and
`flusherWaiting` (a `Flush` caller blocked at `<-flushDone`); the step that
completes that receive requires the flag.  No step of the program sends on
`flushDone`: the consumer's acknowledgment `l.buffer <- slog.Record{}`
goes to the buffer channel. -/

structure LoggerState where
  /-- contents of the `buffer` channel, FIFO. -/
  buffer : List SRecord
  /-- the consumer's accumulated `records` batch. -/
  batch : List SRecord
  /-- records passed to `handler.Handle`, in order. -/
  written : List SRecord
  /-- `close(l.done)` has happened. -/
  doneClosed : Bool
  /-- `processLogs` has returned. -/
  consumerStopped : Bool
  /-- a `Flush` caller is blocked at `<-flushDone`. -/
  flusherWaiting : Bool
  /-- a signal is available on that caller's `flushDone` channel. -/
  flushDoneSignaled : Bool
deriving DecidableEq, Repr

/-- The body of the `case record := <-l.buffer` arm of `processLogs`, as a
function of the received record and the rest of the channel: intercept the
sentinel (write the batch, drop the sentinel, inject `slog.Record{}`), or
append to the batch and flush it when it reaches `AsyncBufferSize`. -/
def handleRecord (cap : ℕ) (s : LoggerState) (r : SRecord)
    (rest : List SRecord) : LoggerState :=
  if r.msg = flushSignal then
    { s with buffer := rest ++ [emptyRecord], batch := [],
             written := s.written ++ s.batch }
  else
    let b := s.batch ++ [r]
    if cap ≤ b.length then
      { s with buffer := rest, batch := [], written := s.written ++ b }
    else
      { s with buffer := rest, batch := b }

/-- One interleaving step of the slogger's threads.  `cap` is
`AsyncBufferSize` (both the channel capacity and the batch threshold). -/
inductive Step (cap : ℕ) : LoggerState → LoggerState → Prop
  /-- the consumer receives from `buffer`; when the record is the sentinel
  the acknowledgment send back into `buffer` needs room. -/
  | recv (s : LoggerState) (r : SRecord) (rest : List SRecord) :
      s.consumerStopped = false → s.buffer = r :: rest →
      (r.msg = flushSignal → rest.length < cap) →
      Step cap s (handleRecord cap s r rest)
  /-- the flush-interval ticker fires with a nonempty batch. -/
  | tick (s : LoggerState) :
      s.consumerStopped = false → s.batch ≠ [] →
      Step cap s { s with batch := [], written := s.written ++ s.batch }
  /-- the consumer takes the `<-l.done` arm: write the pending batch and
  return, leaving the buffer channel as it is. -/
  | stop (s : LoggerState) :
      s.consumerStopped = false → s.doneClosed = true →
      Step cap s { s with batch := [], written := s.written ++ s.batch,
                          consumerStopped := true }
  /-- `Close` runs `close(l.done)`. -/
  | closeDone (s : LoggerState) :
      s.doneClosed = false → Step cap s { s with doneClosed := true }
  /-- a producer's select sends into `buffer` (needs room); this is also
  how `Flush` submits its sentinel. -/
  | enqueue (s : LoggerState) (r : SRecord) :
      s.buffer.length < cap →
      Step cap s { s with buffer := s.buffer ++ [r] }
  /-- a producer's select hits `default` (buffer full) and writes the
  record synchronously through the handler. -/
  | syncWrite (s : LoggerState) (r : SRecord) :
      cap ≤ s.buffer.length →
      Step cap s { s with written := s.written ++ [r] }
  /-- the blocked `Flush` caller completes `<-flushDone`: only possible
  with a signal available on `flushDone`. -/
  | flushReturn (s : LoggerState) :
      s.flusherWaiting = true → s.flushDoneSignaled = true →
      Step cap s { s with flusherWaiting := false }

/-- Interleavings: reflexive-transitive closure of `Step`. -/
def Reaches (cap : ℕ) : LoggerState → LoggerState → Prop :=
  Relation.ReflTransGen (Step cap)

/-! ## Configuration and `UpdateConfig` (`xlog/slogger.go`, `xlog/config.go`)

`SamplerType` is a string with the two known constants `"rate"` and
`"jitter"`; the `default` arm of both switches is any other string, the
`other` constructor here.  The sampler field of the logger is embedded as
a sum of the two sampler states; `NewJitterSampler` leaves `lastSample`
at the zero time. -/

inductive SamplerTypeM where
  | rate
  | jitter
  | other
deriving DecidableEq, Repr

structure SamplingConfigM where
  type : SamplerTypeM
  rate : ℚ
  jitter : ℤ
deriving DecidableEq, Repr

/-- The fields of `LogConfig` that `validateConfig` and the claims touch;
`writerSet` stands for `config.Writer != nil`. -/
structure LogConfigM where
  level : LogLevel
  writerSet : Bool
  asyncBufferSize : ℤ
  flushInterval : ℤ
  sampling : SamplingConfigM
deriving DecidableEq, Repr

/-- Embeds `validateConfig`: the first failing check's message, or `none`. -/
def validateConfig (c : LogConfigM) : Option String :=
  if c.writerSet = false then some "log writer is not set"
  else if c.asyncBufferSize ≤ 0 then some "async buffer size must be greater than 0"
  else if c.flushInterval ≤ 0 then some "flush interval must be greater than 0"
  else if c.sampling.rate < 0 ∨ 1 < c.sampling.rate then
    some "sampling rate must be between 0 and 1"
  else none

/-- The logger's `sampler` field: a `RateSampler` or a `JitterSampler`
(rate, jitter, lastSample). -/
inductive SamplerM where
  | rateS (s : RateSampler)
  | jitterS (rate : ℚ) (jitter : ℤ) (lastSample : ℤ)
deriving DecidableEq, Repr

/-- Embeds `NewJitterSampler`: stores the rate and the jitter, `lastSample` is the
zero time. -/
def NewJitterSampler (rate : ℚ) (jitter : ℤ) : SamplerM :=
  .jitterS rate jitter 0

/-- Embeds `Sampler.GetRate` through the interface. -/
def SamplerM.GetRate : SamplerM → ℚ
  | .rateS s => s.GetRate
  | .jitterS rate _ _ => rate

/-- The sampler-update block of `SlogLogger.UpdateConfig` (lines 358–378):
replace the sampler only when the sampling config changed; a rate-sampler
request keeps the requested rate only when `0 < rate ≤ 1`, otherwise it
falls back to rate 1, and likewise for the jitter variant. -/
def updateSampler (oldS : SamplingConfigM) (cur : SamplerM)
    (newS : SamplingConfigM) : SamplerM :=
  if newS = oldS then cur
  else
    match newS.type with
    | .rate =>
        if 0 < newS.rate ∧ newS.rate ≤ 1 then .rateS (NewRateSampler newS.rate)
        else .rateS (NewRateSampler 1)
    | .jitter =>
        if 0 < newS.rate ∧ newS.rate ≤ 1 then NewJitterSampler newS.rate newS.jitter
        else NewJitterSampler 1 newS.jitter
    | .other => .rateS (NewRateSampler 1)

/-- The logger state `UpdateConfig` reads and writes: the atomic level, the
stored config and the sampler. -/
structure SLogger where
  level : LogLevel
  config : LogConfigM
  sampler : SamplerM
deriving DecidableEq, Repr

/-- Embeds `SlogLogger.GetSamplingRate` (the sampler is never nil here). -/
def GetSamplingRate (l : SLogger) : ℚ :=
  l.sampler.GetRate

/-- Embeds `SlogLogger.UpdateConfig`: validate, update the level when changed,
update the sampler when the sampling config changed, store the new
config. -/
def UpdateConfig (l : SLogger) (newC : LogConfigM) : Except String SLogger :=
  match validateConfig newC with
  | some e => .error ("invalid config: " ++ e)
  | none =>
      let lvl := if newC.level ≠ l.config.level then newC.level else l.level
      let smp := updateSampler l.config.sampling l.sampler newC.sampling
      .ok { level := lvl, config := newC, sampler := smp }

/-! ## The rotation-aware write path (`xlog/rotator.go`)

`logWriter.Write` turns the byte slice into a `rotatorEntry`, sends it to
the rotator's write channel and returns `(len(p), nil)` unconditionally.
`SlogLogger.writeBatch` hands each record to the handler and reports a
failure only to the internal diagnostics logger. -/

structure RotatorEntry where
  message : String
  time : ℤ
deriving DecidableEq, Repr

/-- Embeds `logWriter.Write`: the pair (return value, channel contents after the
send). -/
def logWriterWrite (p : String) (now : ℤ) (channel : List RotatorEntry) :
    (ℕ × Option String) × List RotatorEntry :=
  ((p.length, none), channel ++ [{ message := p, time := now }])

/-- Embeds `SlogLogger.writeBatch`: the handler is `SRecord → Option String`
(`nil` or an error); the internal diagnostics log grows by one line per
failing record and nothing is returned to any producer. -/
def writeBatch (handle : SRecord → Option String) (records : List SRecord)
    (diags : List String) : List String :=
  records.foldl
    (fun d r =>
      match handle r with
      | some e => d ++ ["Failed to handle log record: " ++ e]
      | none => d)
    diags

/-! ## Retention sweep (`xlog/rotator.go`, `CustomRotator.Cleanup`)

The directory is a list of files (path, modification time in hours); the
glob `*.log` is the suffix filter, and `sort.Slice` with
`info1.ModTime().After(info2.ModTime())` orders by modification time
descending.

Two helpers called by `Cleanup` are not part of the provided sources, only
this caller is; they are modelled from the spec:

* `compressFile` — Modelled from the spec: missing `xlog.compressFile`.
  "all older files that are not yet compressed are compressed in place
  (and the uncompressed original removed only after the compressed copy is
  verified written)", compressed files carrying "an additional
  compression-format suffix": on success the original path is gone and
  `path.gz` exists.  The embedding records the set of compressed originals
  and treats those paths as no longer existing.
* `getModTime` — Modelled from the spec: missing `xlog.getModTime`.  "any
  file whose age exceeds the maximum retention age": it returns the file's
  modification time, here read off the directory snapshot.

`os.Remove` on a path that no longer exists returns an error, and
`Cleanup` returns that error immediately, abandoning the rest of the
delete loop.

Instants are `ℤ` nanoseconds (Go's `time.Time` / `time.Duration`
resolution).  The age test
`now.Sub(getModTime(file)).Hours() > float64(cr.maxAge*24)` divides the
nanosecond duration by 3.6e12 and compares as float64; the embedding uses
the equivalent exact integer comparison
`maxAge * 24 * 3600000000000 < now - modTime`. -/

structure LogFile where
  name : String
  modTimeNs : ℤ
deriving DecidableEq, Repr

/-- Embeds `strings.HasSuffix`, via the character list of the string. -/
def hasSuffix (s suffix : String) : Bool :=
  suffix.data.isSuffixOf s.data

/-- What one run of `Cleanup` did: originals compressed away, paths
successfully removed, and whether the sweep returned an error. -/
structure CleanupResult where
  compressed : List String
  deleted : List String
  errored : Bool
deriving DecidableEq, Repr

/-- The deletion criterion of the second loop:
`i >= cr.maxBackups || now.Sub(getModTime(file)).Hours() > float64(cr.maxAge*24)`. -/
def deleteEligible (maxBackups maxAge : ℤ) (now : ℤ) (i : ℕ) (f : LogFile) : Bool :=
  decide (maxBackups ≤ (i : ℤ)) ||
    decide (maxAge * 24 * 3600000000000 < now - f.modTimeNs)

/-- The delete loop: walk the sorted listing with its index, remove each
file meeting the criterion, and stop with an error at the first such file
whose original was compressed away (`os.Remove` fails on the missing
path).  Returns (paths removed, error?). -/
def deleteSweep (maxBackups maxAge : ℤ) (now : ℤ) (gone : List String) :
    ℕ → List LogFile → List String × Bool
  | _, [] => ([], false)
  | i, f :: rest =>
      if deleteEligible maxBackups maxAge now i f then
        if f.name ∈ gone then ([], true)
        else
          let r := deleteSweep maxBackups maxAge now gone (i + 1) rest
          (f.name :: r.1, r.2)
      else deleteSweep maxBackups maxAge now gone (i + 1) rest

/-- Embeds `CustomRotator.Cleanup`: glob `*.log`, sort by modification time
descending, compress every file of rank ≥ `notCompressed` (all globbed
names end in `.log`, so the `HasSuffix` guard always passes), then run the
delete loop over the same listing. -/
def Cleanup (notCompressed maxBackups maxAge : ℤ) (now : ℤ)
    (dir : List LogFile) : CleanupResult :=
  let files := dir.filter (fun f => hasSuffix f.name ".log")
  let sorted := files.insertionSort (fun a b => b.modTimeNs ≤ a.modTimeNs)
  let compressed :=
    (sorted.enum.filter
      (fun p => decide (notCompressed ≤ (p.1 : ℤ)) && hasSuffix p.2.name ".log")).map
      (fun p => p.2.name)
  let swept := deleteSweep maxBackups maxAge now compressed 0 sorted
  { compressed := compressed, deleted := swept.1, errored := swept.2 }

/-! ## Concrete scenario states

Closed instances used by the counterexamples and witnesses below. -/

/-- The sentinel record `Flush` enqueues
(`slog.Record{Time: time.Now(), Message: "FLUSH_SIGNAL"}`). -/
def c1Sentinel : SRecord :=
  { time := 5, lvl := 0, msg := "FLUSH_SIGNAL", attrs := [] }

/-- A normal record sitting in the consumer's batch. -/
def c1Pending : SRecord :=
  { time := 1, lvl := 1, msg := "ready", attrs := [] }

/-- The state right after a `Flush` caller's sentinel was accepted: the
caller blocks at `<-flushDone`, one normal record is batched. -/
def c1Start : LoggerState :=
  { buffer := [c1Sentinel], batch := [c1Pending], written := [],
    doneClosed := false, consumerStopped := false,
    flusherWaiting := true, flushDoneSignaled := false }

/-- A normal record a producer enqueued just before `Close`. -/
def c2Record : SRecord :=
  { time := 7, lvl := 1, msg := "hello", attrs := [] }

/-- State in which `close(l.done)` has happened while `c2Record` sits
unread in the buffer channel. -/
def c2Start : LoggerState :=
  { buffer := [c2Record], batch := [], written := [],
    doneClosed := true, consumerStopped := false,
    flusherWaiting := false, flushDoneSignaled := false }

/-- The state after the consumer's select takes the `<-l.done` arm. -/
def c2End : LoggerState :=
  { buffer := [c2Record], batch := [], written := [],
    doneClosed := true, consumerStopped := true,
    flusherWaiting := false, flushDoneSignaled := false }

/-- A consumer state with one batched record, for the C10 witness. -/
def c10State : LoggerState :=
  { buffer := [], batch := [⟨1, 1, "a", []⟩], written := [],
    doneClosed := false, consumerStopped := false,
    flusherWaiting := false, flushDoneSignaled := false }

/-- The logger's previous configuration for the C4 scenario: rate sampler
at rate 1. -/
def c4OldConfig : LogConfigM :=
  { level := .Info, writerSet := true, asyncBufferSize := 16,
    flushInterval := 5, sampling := { type := .rate, rate := 1, jitter := 0 } }

/-- The requested new configuration: same, but sampling rate 0 — valid per
`validateConfig` (0 ≤ rate ≤ 1). -/
def c4NewConfig : LogConfigM :=
  { level := .Info, writerSet := true, asyncBufferSize := 16,
    flushInterval := 5, sampling := { type := .rate, rate := 0, jitter := 0 } }

/-- The logger before the update. -/
def c4Logger : SLogger :=
  { level := .Info, config := c4OldConfig, sampler := .rateS (NewRateSampler 1) }

/-- The logger `UpdateConfig` actually produces for `c4NewConfig`. -/
def c4Updated : SLogger :=
  { level := .Info, config := c4NewConfig, sampler := .rateS (NewRateSampler 1) }

/-- The most recent file in the C8 directory (rank 0, age 0). -/
def c8FileA : LogFile := { name := "a.log", modTimeNs := 3600000000000 * 1000 }

/-- The older file (rank 1, age 1 hour): deletion-eligible by rank. -/
def c8FileB : LogFile := { name := "b.log", modTimeNs := 3600000000000 * 999 }

/-! # Theorems -/

/-- C3: the claim "rate ≥ 1 ⇒ `Sample()` always true" fails on the code.
`NewRateSampler(1.0)` stores the threshold `2^63`, but the draw is
`rand.Uint64()`, uniform over `[0, 2^64)`: the draw `2^63` (like every
draw in the upper half of the range) makes `Sample` return false, so rate
1.0 accepts only draws below `2^63`.  (The `r = 0` edge holds: threshold 0
accepts nothing; this theorem exhibits the failing half.) -/
theorem rate_one_sampler_rejects_draw :
    (NewRateSampler 1).rate = 2 ^ 63 ∧
      2 ^ 63 < 2 ^ 64 ∧
      RateSampler.Sample (NewRateSampler 1) (2 ^ 63) = false ∧
      RateSampler.Sample (NewRateSampler 0) 0 = false := by
  refine ⟨?_, by norm_num, ?_, ?_⟩
  · norm_num [NewRateSampler, rateToUint64]
    rfl
  · norm_num [RateSampler.Sample, NewRateSampler, rateToUint64]
  · norm_num [RateSampler.Sample, NewRateSampler, rateToUint64]

/-- C5: `SlogLogger.log` forwards an event past the level filter (to the
sampler/buffer stage) iff its severity is at or above the current level;
an event strictly below the threshold yields the early `filtered` return,
whatever the sampler would have said. -/
theorem severity_filter_iff (cur lvl : LogLevel) (sampleOK : Bool) (now : ℤ)
    (msg : String) (fields : List (String × String)) :
    slogLog cur lvl sampleOK now msg fields ≠ .filtered ↔
      levelOrder cur ≤ levelOrder lvl := by
  by_cases h : levelOrder lvl < levelOrder cur
  · simp [slogLog, LogLevel.IsHighThan, h, Nat.not_le.mpr h]
  · have h' : levelOrder cur ≤ levelOrder lvl := Nat.not_lt.mp h
    by_cases hs : lvl.IsLowerOrEqualThan .Warn && !sampleOK <;>
      simp [slogLog, LogLevel.IsHighThan, h, hs, h']

/-- C6: events of severity Error or Fatal that pass the level filter skip
the sampling branch entirely (the outcome does not depend on the sampler's
answer, and even a rejecting sampler leaves the record emitted), while
events of severity Warn and below are dropped whenever the sampler
declines. -/
theorem error_fatal_bypass_sampler (cur lvl : LogLevel) (now : ℤ)
    (msg : String) (fields : List (String × String)) :
    (lvl = .Error ∨ lvl = .Fatal →
      (∀ sampleOK : Bool,
        slogLog cur lvl sampleOK now msg fields =
          slogLog cur lvl true now msg fields) ∧
      (cur.IsHighThan lvl = false →
        slogLog cur lvl false now msg fields =
          .emit (mkRecord now lvl msg fields))) ∧
    (lvl = .Debug ∨ lvl = .Info ∨ lvl = .Warn →
      cur.IsHighThan lvl = false →
      slogLog cur lvl false now msg fields = .sampledOut) := by
  constructor
  · rintro (rfl | rfl) <;>
      exact ⟨fun sampleOK => by simp [slogLog, LogLevel.IsLowerOrEqualThan, levelOrder],
        fun hpass => by simp [slogLog, hpass, LogLevel.IsLowerOrEqualThan, levelOrder]⟩
  · rintro (rfl | rfl | rfl) hpass <;>
      simp [slogLog, hpass, LogLevel.IsLowerOrEqualThan, levelOrder]

/-- C9: the public write path never surfaces an error: `logWriter.Write`
returns `(len(p), nil)` whatever the downstream state, and `writeBatch`
only appends one line per failing record to the internal diagnostics log —
its effect is confined to the diagnostics, nothing is handed back to the
producer. -/
theorem write_path_never_propagates_errors (p : String) (now : ℤ)
    (channel : List RotatorEntry) (handle : SRecord → Option String)
    (records : List SRecord) (diags : List String) :
    (logWriterWrite p now channel).1 = (p.length, none) ∧
      writeBatch handle records diags =
        diags ++ records.filterMap
          (fun r => (handle r).map (fun e => "Failed to handle log record: " ++ e)) := by
  refine ⟨rfl, ?_⟩
  induction records generalizing diags with
  | nil => simp [writeBatch]
  | cons r rest ih =>
      cases h : handle r with
      | some e =>
          have hstep : writeBatch handle (r :: rest) diags =
              writeBatch handle rest (diags ++ ["Failed to handle log record: " ++ e]) := by
            simp [writeBatch, h]
          rw [hstep, ih]
          simp [h]
      | none =>
          have hstep : writeBatch handle (r :: rest) diags =
              writeBatch handle rest diags := by
            simp [writeBatch, h]
          rw [hstep, ih]
          simp [h]

/-- Invariant of a sequential jitter-sampler trace with nondecreasing
clock values: the accepted times are pairwise at least `jitter` apart, all
lie at least `jitter` past the incoming `lastSample`, and all occur in the
trace. -/
theorem jitterAccepted_spec (jitter : ℤ) (trace : List (ℤ × Bool)) :
    ∀ lastSample : ℤ,
      (trace.map Prod.fst).Pairwise (· ≤ ·) →
      List.Pairwise (fun a b => jitter ≤ b - a)
          (jitterAcceptedTimes jitter lastSample trace) ∧
        (∀ a ∈ jitterAcceptedTimes jitter lastSample trace,
          lastSample + jitter ≤ a) ∧
        (∀ a ∈ jitterAcceptedTimes jitter lastSample trace,
          a ∈ trace.map Prod.fst) := by
  induction trace with
  | nil => intro lastSample _; simp [jitterAcceptedTimes]
  | cons hd rest ih =>
      obtain ⟨now, rateOK⟩ := hd
      intro lastSample hmono
      have hmono' : (rest.map Prod.fst).Pairwise (· ≤ ·) :=
        (List.pairwise_cons.mp (by simpa using hmono)).2
      have hhead : ∀ t ∈ rest.map Prod.fst, now ≤ t :=
        (List.pairwise_cons.mp (by simpa using hmono)).1
      by_cases htime : now - lastSample < jitter
      · have heq : jitterAcceptedTimes jitter lastSample ((now, rateOK) :: rest) =
            jitterAcceptedTimes jitter lastSample rest := by
          simp [jitterAcceptedTimes, jitterSampleStep, htime]
        rw [heq]
        obtain ⟨h1, h2, h3⟩ := ih lastSample hmono'
        exact ⟨h1, h2, fun a ha => by simpa using Or.inr (by simpa using h3 a ha)⟩
      · by_cases hrate : rateOK = true
        · have heq : jitterAcceptedTimes jitter lastSample ((now, rateOK) :: rest) =
              now :: jitterAcceptedTimes jitter now rest := by
            simp [jitterAcceptedTimes, jitterSampleStep, htime, hrate]
          rw [heq]
          obtain ⟨h1, h2, h3⟩ := ih now hmono'
          have hnow : lastSample + jitter ≤ now := by omega
          refine ⟨List.pairwise_cons.mpr ⟨fun b hb => ?_, h1⟩, ?_, ?_⟩
          · have := h2 b hb; omega
          · intro a ha
            rcases List.mem_cons.mp ha with rfl | ha'
            · exact hnow
            · have := hhead a (h3 a ha'); omega
          · intro a ha
            rcases List.mem_cons.mp ha with rfl | ha'
            · simp
            · simpa using Or.inr (by simpa using h3 a ha')
        · have hrate' : rateOK = false := by
            cases rateOK
            · rfl
            · exact absurd rfl hrate
          have heq : jitterAcceptedTimes jitter lastSample ((now, rateOK) :: rest) =
              jitterAcceptedTimes jitter lastSample rest := by
            simp [jitterAcceptedTimes, jitterSampleStep, htime, hrate']
          rw [heq]
          obtain ⟨h1, h2, h3⟩ := ih lastSample hmono'
          exact ⟨h1, h2, fun a ha => by simpa using Or.inr (by simpa using h3 a ha)⟩

/-- C7: over any sequential trace of `JitterSampler.Sample` calls
(nondecreasing clock values, arbitrary rate-check outcomes — so arbitrary
rates, including rates changed mid-trace), a call arriving less than
`jitter` after the stored last-accepted instant is rejected
unconditionally, and any two accepted calls are at least `jitter` apart. -/
theorem jitter_sampler_min_separation (jitter lastSample : ℤ)
    (trace : List (ℤ × Bool))
    (hmono : (trace.map Prod.fst).Pairwise (· ≤ ·)) :
    (∀ now rateOK, now - lastSample < jitter →
        (jitterSampleStep jitter lastSample now rateOK).1 = false) ∧
      List.Pairwise (fun a b => jitter ≤ b - a)
        (jitterAcceptedTimes jitter lastSample trace) :=
  ⟨fun _now _rateOK h => by simp [jitterSampleStep, h],
    (jitterAccepted_spec jitter trace lastSample hmono).1⟩

/-- Witness for C7 at a concrete trace: jitter 10, calls at times 10, 15,
25 with the rate check passing each time; times 10 and 25 are accepted and
are 15 ≥ 10 apart, the call at 15 is rejected by the gate. -/
theorem jitter_sampler_min_separation_witness :
    ((([(10, true), (15, true), (25, true)] : List (ℤ × Bool)).map
        Prod.fst).Pairwise (· ≤ ·)) ∧
      ((∀ now rateOK, now - 0 < 10 →
          (jitterSampleStep 10 0 now rateOK).1 = false) ∧
        List.Pairwise (fun a b => (10 : ℤ) ≤ b - a)
          (jitterAcceptedTimes 10 0 [(10, true), (15, true), (25, true)])) :=
  ⟨by simp [List.pairwise_cons],
    jitter_sampler_min_separation 10 0 _ (by simp [List.pairwise_cons])⟩

/-- Helper: `handleRecord` only touches the buffer, the batch and the written
log: the flusher-side flags pass through unchanged. -/
theorem handleRecord_fw (cap : ℕ) (s : LoggerState) (r : SRecord)
    (rest : List SRecord) :
    (handleRecord cap s r rest).flusherWaiting = s.flusherWaiting := by
  unfold handleRecord
  split
  · rfl
  · dsimp only
    split <;> rfl

/-- Helper: `handleRecord` leaves `flushDoneSignaled` unchanged. -/
theorem handleRecord_fs (cap : ℕ) (s : LoggerState) (r : SRecord)
    (rest : List SRecord) :
    (handleRecord cap s r rest).flushDoneSignaled = s.flushDoneSignaled := by
  unfold handleRecord
  split
  · rfl
  · dsimp only
    split <;> rfl

/-- C1: the claim "`Flush()` terminates / the accepted sentinel is
eventually acknowledged" fails on the code.  From any state in which a
`Flush` caller is blocked at `<-flushDone` (its sentinel was accepted into
the buffer) and `flushDone` carries no signal, every reachable state keeps
the caller blocked: no step of the program ever signals `flushDone` — the
consumer's "completion signal" is an empty record sent into `buffer`,
line 117, a channel no `Flush` caller reads for that purpose — so the
receive never completes and `Flush` never returns. -/
theorem flush_caller_never_released (cap : ℕ) (s0 s : LoggerState)
    (h0 : s0.flusherWaiting = true) (h1 : s0.flushDoneSignaled = false)
    (hr : Reaches cap s0 s) :
    s.flusherWaiting = true ∧ s.flushDoneSignaled = false := by
  induction hr with
  | refl => exact ⟨h0, h1⟩
  | tail _hab hbc ih =>
      obtain ⟨ihw, ihs⟩ := ih
      cases hbc with
      | recv r rest hc hb hroom =>
          exact ⟨(handleRecord_fw _ _ _ _).trans ihw,
            (handleRecord_fs _ _ _ _).trans ihs⟩
      | tick hc hne => exact ⟨ihw, ihs⟩
      | stop hc hd => exact ⟨ihw, ihs⟩
      | closeDone hd => exact ⟨ihw, ihs⟩
      | enqueue r hroom => exact ⟨ihw, ihs⟩
      | syncWrite r hfull => exact ⟨ihw, ihs⟩
      | flushReturn hw hsig => exact absurd hsig (by simp [ihs])

/-- Witness for C1: from `c1Start`, after the consumer consumes the
sentinel (flushing the batch and injecting the empty record into the
buffer), the `Flush` caller is still blocked and `flushDone` still carries
no signal. -/
theorem flush_caller_never_released_witness :
    Reaches 4 c1Start (handleRecord 4 c1Start c1Sentinel []) ∧
      ((handleRecord 4 c1Start c1Sentinel []).flusherWaiting = true ∧
        (handleRecord 4 c1Start c1Sentinel []).flushDoneSignaled = false) :=
  ⟨Relation.ReflTransGen.single
      (Step.recv c1Start c1Sentinel [] rfl rfl (fun _ => by decide)),
    flush_caller_never_released 4 c1Start _ rfl rfl
      (Relation.ReflTransGen.single
        (Step.recv c1Start c1Sentinel [] rfl rfl (fun _ => by decide)))⟩

/-- C2: the claim "after `Close()` every record enqueued into the buffer
has been written" fails on the code.  With `c2Record` accepted into the
buffer channel and `done` closed, the consumer's select may take the
`<-l.done` arm (Go's select chooses among ready arms), which writes only
the accumulated batch and returns without draining the channel: the
consumer terminates — so `Close`'s `wg.Wait()` returns — while `c2Record`
is still in the buffer and was never written. -/
theorem close_strands_buffered_record :
    Reaches 4 c2Start c2End ∧
      c2End.consumerStopped = true ∧
      c2End.buffer = [c2Record] ∧
      c2Record ∉ c2End.written := by
  refine ⟨Relation.ReflTransGen.single ?_, rfl, rfl, by simp [c2End]⟩
  exact Step.stop c2Start rfl rfl

/-- C10: a record whose message is literally `"FLUSH_SIGNAL"`, submitted
through the ordinary logging path, is built and enqueued like any other
record (the producer path never inspects the message), and on receipt the
consumer treats it as a flush command: the pending batch is written, the
record itself is never written and is gone from the system, and one empty
`slog.Record` is injected back into the buffer. -/
theorem flush_signal_message_hijacked (cur : LogLevel) (now : ℤ)
    (fields : List (String × String)) (cap : ℕ) (s : LoggerState)
    (rest : List SRecord)
    (hpass : cur.IsHighThan .Info = false)
    (hb : mkRecord now .Info flushSignal fields ∉ s.batch)
    (hw : mkRecord now .Info flushSignal fields ∉ s.written)
    (hrest : mkRecord now .Info flushSignal fields ∉ rest) :
    slogLog cur .Info true now flushSignal fields =
        .emit (mkRecord now .Info flushSignal fields) ∧
      handleRecord cap s (mkRecord now .Info flushSignal fields) rest =
        { s with buffer := rest ++ [emptyRecord], batch := [],
                 written := s.written ++ s.batch } ∧
      mkRecord now .Info flushSignal fields ∉
        (handleRecord cap s (mkRecord now .Info flushSignal fields) rest).written ∧
      mkRecord now .Info flushSignal fields ∉
        (handleRecord cap s (mkRecord now .Info flushSignal fields) rest).buffer ∧
      emptyRecord ∈
        (handleRecord cap s (mkRecord now .Info flushSignal fields) rest).buffer := by
  have hmsg : (mkRecord now .Info flushSignal fields).msg = flushSignal := rfl
  have hhandle : handleRecord cap s (mkRecord now .Info flushSignal fields) rest =
      { s with buffer := rest ++ [emptyRecord], batch := [],
               written := s.written ++ s.batch } := by
    unfold handleRecord
    simp [hmsg]
  refine ⟨?_, hhandle, ?_, ?_, ?_⟩
  · simp [slogLog, hpass]
  · rw [hhandle]
    simp [List.mem_append, hb, hw]
  · rw [hhandle]
    have hne : mkRecord now .Info flushSignal fields ≠ emptyRecord := by
      intro h
      have : flushSignal = "" := congrArg SRecord.msg h
      simp [flushSignal] at this
    simp [List.mem_append, hrest, hne]
  · rw [hhandle]
    simp

/-- Witness for C10: concrete instance — threshold Info, an Info-level
record with message `"FLUSH_SIGNAL"`, empty batch/written/rest. -/
theorem flush_signal_message_hijacked_witness :
    (LogLevel.Info.IsHighThan .Info = false ∧
        mkRecord 3 .Info flushSignal [] ∉ ([] : List SRecord) ∧
        mkRecord 3 .Info flushSignal [] ∉
          ([⟨1, 1, "a", []⟩] : List SRecord)) ∧
      (slogLog .Info .Info true 3 flushSignal [] =
          .emit (mkRecord 3 .Info flushSignal []) ∧
        handleRecord 2 c10State (mkRecord 3 .Info flushSignal []) [] =
          { c10State with buffer := [emptyRecord], batch := [],
                          written := [⟨1, 1, "a", []⟩] } ∧
        mkRecord 3 .Info flushSignal [] ∉
          (handleRecord 2 c10State (mkRecord 3 .Info flushSignal []) []).written ∧
        mkRecord 3 .Info flushSignal [] ∉
          (handleRecord 2 c10State (mkRecord 3 .Info flushSignal []) []).buffer ∧
        emptyRecord ∈
          (handleRecord 2 c10State (mkRecord 3 .Info flushSignal []) []).buffer) := by
  refine ⟨⟨rfl, by simp, by simp [mkRecord]⟩, ?_⟩
  have h := flush_signal_message_hijacked .Info 3 [] 2 c10State []
    rfl (by simp [c10State, mkRecord]) (by simp [c10State]) (by simp)
  simpa [c10State] using h

/-- C4 counterexample: the claim "a validated rate-0 update is applied as
given (`GetSamplingRate()` returns 0 and the sampler never accepts)" fails
on the code.  `c4NewConfig` passes validation with rate 0, yet
`UpdateConfig` installs `NewRateSampler(1)` (the `else` arm of the
`0 < rate ≤ 1` guard): afterwards `GetSamplingRate()` returns 1 and the
sampler accepts the draw 0. -/
theorem update_config_rate_zero_counterexample :
    validateConfig c4NewConfig = none ∧
      c4NewConfig.sampling.rate = 0 ∧
      UpdateConfig c4Logger c4NewConfig = .ok c4Updated ∧
      GetSamplingRate c4Updated = 1 ∧
      c4Updated.sampler = .rateS (NewRateSampler 1) ∧
      RateSampler.Sample (NewRateSampler 1) 0 = true := by
  refine ⟨?_, rfl, ?_, ?_, rfl, ?_⟩
  · norm_num [validateConfig, c4NewConfig]
  · have hne : c4NewConfig.sampling ≠ c4OldConfig.sampling := by
      simp [c4NewConfig, c4OldConfig]
    norm_num [UpdateConfig, validateConfig, c4NewConfig, c4Logger, c4OldConfig,
      c4Updated, updateSampler]
  · norm_num [GetSamplingRate, c4Updated, SamplerM.GetRate, RateSampler.GetRate,
      NewRateSampler, rateToUint64]
    norm_num [show Int.toNat 9223372036854775808 = 9223372036854775808 from rfl]
  · norm_num [RateSampler.Sample, NewRateSampler, rateToUint64]

/-- C4 amended: a validated update whose sampling config changed to the
rate-sampler type with rate 0 does succeed, but silently installs
`NewRateSampler(1)` instead: the new sampler is the rate-1 sampler and
`GetSamplingRate()` returns 1, not 0. -/
theorem update_config_rate_zero_amended (l : SLogger) (newC : LogConfigM)
    (hv : validateConfig newC = none)
    (ht : newC.sampling.type = .rate)
    (hr : newC.sampling.rate = 0)
    (hne : newC.sampling ≠ l.config.sampling) :
    UpdateConfig l newC =
        .ok { level := if newC.level ≠ l.config.level then newC.level else l.level,
              config := newC,
              sampler := .rateS (NewRateSampler 1) } ∧
      GetSamplingRate
        { level := if newC.level ≠ l.config.level then newC.level else l.level,
          config := newC,
          sampler := .rateS (NewRateSampler 1) } = 1 := by
  constructor
  · have hs : updateSampler l.config.sampling l.sampler newC.sampling =
        .rateS (NewRateSampler 1) := by
      unfold updateSampler
      rw [if_neg hne, ht]
      have : ¬(0 < newC.sampling.rate ∧ newC.sampling.rate ≤ 1) := by
        rw [hr]; norm_num
      rw [if_neg this]
    unfold UpdateConfig
    rw [hv, hs]
  · norm_num [GetSamplingRate, SamplerM.GetRate, RateSampler.GetRate,
      NewRateSampler, rateToUint64]
    norm_num [show Int.toNat 9223372036854775808 = 9223372036854775808 from rfl]

/-- Witness for C4's amended theorem at the concrete configs. -/
theorem update_config_rate_zero_amended_witness :
    (validateConfig c4NewConfig = none ∧
        c4NewConfig.sampling.type = .rate ∧
        c4NewConfig.sampling.rate = 0 ∧
        c4NewConfig.sampling ≠ c4Logger.config.sampling) ∧
      (UpdateConfig c4Logger c4NewConfig =
          .ok { level := if c4NewConfig.level ≠ c4Logger.config.level then
                  c4NewConfig.level else c4Logger.level,
                config := c4NewConfig,
                sampler := .rateS (NewRateSampler 1) } ∧
        GetSamplingRate
          { level := if c4NewConfig.level ≠ c4Logger.config.level then
              c4NewConfig.level else c4Logger.level,
            config := c4NewConfig,
            sampler := .rateS (NewRateSampler 1) } = 1) := by
  have hv : validateConfig c4NewConfig = none := by
    norm_num [validateConfig, c4NewConfig]
  have hne : c4NewConfig.sampling ≠ c4Logger.config.sampling := by
    simp [c4NewConfig, c4Logger, c4OldConfig]
  exact ⟨⟨hv, rfl, rfl, hne⟩,
    update_config_rate_zero_amended c4Logger c4NewConfig hv rfl rfl hne⟩

/-- Entries of `enumFrom` carry members of the underlying list. -/
theorem snd_mem_of_mem_enumFrom {l : List LogFile} :
    ∀ {i : ℕ} {p : ℕ × LogFile}, p ∈ l.enumFrom i → p.2 ∈ l := by
  induction l with
  | nil => intro i p h; simp [List.enumFrom] at h
  | cons f rest ih =>
      intro i p h
      rcases (by simpa [List.enumFrom] using h : p = (i, f) ∨ p ∈ rest.enumFrom (i + 1)) with
        rfl | h'
      · simp
      · exact List.mem_cons_of_mem _ (ih h')

/-- Closed form of the delete loop: walking the listing from index `i`, the
removed paths are the deletion-eligible ones up to (not including) the
first eligible path that was compressed away, and the sweep errors iff
some eligible path was compressed away. -/
theorem deleteSweep_eq (maxBackups maxAge now : ℤ) (gone : List String)
    (l : List LogFile) :
    ∀ i : ℕ,
      deleteSweep maxBackups maxAge now gone i l =
        ((((l.enumFrom i).filter
            (fun p => deleteEligible maxBackups maxAge now p.1 p.2)).map
            (fun p => p.2.name)).takeWhile (fun n => !decide (n ∈ gone)),
         (((l.enumFrom i).filter
            (fun p => deleteEligible maxBackups maxAge now p.1 p.2)).map
            (fun p => p.2.name)).any (fun n => decide (n ∈ gone))) := by
  induction l with
  | nil => intro i; simp [deleteSweep, List.enumFrom]
  | cons f rest ih =>
      intro i
      by_cases he : deleteEligible maxBackups maxAge now i f = true
      · by_cases hg : f.name ∈ gone
        · simp [deleteSweep, he, hg, List.enumFrom]
        · simp [deleteSweep, he, hg, List.enumFrom, ih (i + 1)]
      · simp [deleteSweep, he, List.enumFrom, ih (i + 1)]

/-- C8 amended: `Cleanup` over a directory of `.log` files (listed here
already ordered by modification time descending — the embedded sort of a
sorted listing is itself) compresses exactly the files of rank ≥
`notCompressed`; it then attempts to delete exactly the files of rank ≥
`maxBackups` or age > `maxAge` days (either limit alone suffices), but
since compression removed the originals of every compressed file, the
delete loop fails at the first deletion-eligible file that was compressed:
the files actually removed are only the eligible ones preceding it, the
sweep returns an error exactly when some eligible file was compressed, and
eligible files from that point on are retained. -/
theorem cleanup_retention_amended (notCompressed maxBackups maxAge now : ℤ)
    (dir : List LogFile)
    (hsorted : List.Sorted (fun a b => b.modTimeNs ≤ a.modTimeNs) dir)
    (hlog : ∀ f ∈ dir, hasSuffix f.name ".log" = true) :
    (Cleanup notCompressed maxBackups maxAge now dir).compressed =
        (dir.enum.filter (fun p => decide (notCompressed ≤ (p.1 : ℤ)))).map
          (fun p => p.2.name) ∧
      (Cleanup notCompressed maxBackups maxAge now dir).deleted =
        ((dir.enum.filter
            (fun p => deleteEligible maxBackups maxAge now p.1 p.2)).map
            (fun p => p.2.name)).takeWhile
          (fun n =>
            !decide (n ∈ (Cleanup notCompressed maxBackups maxAge now dir).compressed)) ∧
      ((Cleanup notCompressed maxBackups maxAge now dir).errored = true ↔
        ∃ p ∈ dir.enum,
          deleteEligible maxBackups maxAge now p.1 p.2 = true ∧
            p.2.name ∈ (Cleanup notCompressed maxBackups maxAge now dir).compressed) := by
  have hfilter : dir.filter (fun f => hasSuffix f.name ".log") = dir :=
    List.filter_eq_self.mpr hlog
  have hsort :
      (dir.filter (fun f => hasSuffix f.name ".log")).insertionSort
        (fun a b => b.modTimeNs ≤ a.modTimeNs) = dir := by
    rw [hfilter]
    exact hsorted.insertionSort_eq
  have hlist :
      (dir.enum.filter
          (fun p => decide (notCompressed ≤ (p.1 : ℤ)) &&
            hasSuffix p.2.name ".log")).map (fun p => p.2.name) =
        (dir.enum.filter (fun p => decide (notCompressed ≤ (p.1 : ℤ)))).map
          (fun p => p.2.name) := by
    congr 1
    refine List.filter_congr ?_
    intro p hp
    rw [hlog p.2 (snd_mem_of_mem_enumFrom hp), Bool.and_true]
  have hcomp :
      (Cleanup notCompressed maxBackups maxAge now dir).compressed =
        (dir.enum.filter (fun p => decide (notCompressed ≤ (p.1 : ℤ)))).map
          (fun p => p.2.name) := by
    simp only [Cleanup]
    rw [hsort, hlist]
  refine ⟨hcomp, ?_, ?_⟩
  · rw [hcomp]
    simp only [Cleanup]
    rw [hsort, hlist, deleteSweep_eq]
    rfl
  · rw [hcomp]
    simp only [Cleanup]
    rw [hsort, hlist, deleteSweep_eq]
    simp only [List.any_eq_true, List.mem_map, List.mem_filter]
    constructor
    · rintro ⟨n, ⟨⟨p, ⟨hpmem, hpe⟩, rfl⟩, hgone⟩⟩
      exact ⟨p, hpmem, hpe, by simpa using hgone⟩
    · rintro ⟨p, hpmem, hpe, hgone⟩
      exact ⟨p.2.name, ⟨⟨p, ⟨hpmem, hpe⟩, rfl⟩, by simpa using hgone⟩⟩

/-- C8 counterexample: with `notCompressed = 1`, `maxBackups = 1`,
`maxAge = 7` and the two files above (ranks 0 and 1 by modification time
descending), the rank-1 file satisfies the claim's deletion criterion
(rank ≥ maxBackups), so the claim requires it deleted and the sweep clean;
instead `Cleanup` deletes nothing and returns an error: the file was first
compressed (rank ≥ notCompressed), its original path is gone, and the
delete loop's `os.Remove` fails there. -/
theorem cleanup_retention_counterexample :
    deleteEligible 1 7 (3600000000000 * 1000) 1 c8FileB = true ∧
      Cleanup 1 1 7 (3600000000000 * 1000) [c8FileA, c8FileB] =
        { compressed := ["b.log"], deleted := [], errored := true } := by
  constructor
  · decide
  · decide

/-- Witness for C8's amended theorem at the concrete two-file directory. -/
theorem cleanup_retention_amended_witness :
    (List.Sorted (fun a b => b.modTimeNs ≤ a.modTimeNs) [c8FileA, c8FileB] ∧
        ∀ f ∈ [c8FileA, c8FileB], hasSuffix f.name ".log" = true) ∧
      ((Cleanup 1 1 7 (3600000000000 * 1000) [c8FileA, c8FileB]).compressed =
          ([c8FileA, c8FileB].enum.filter
              (fun p => decide ((1 : ℤ) ≤ (p.1 : ℤ)))).map (fun p => p.2.name) ∧
        (Cleanup 1 1 7 (3600000000000 * 1000) [c8FileA, c8FileB]).deleted =
          (([c8FileA, c8FileB].enum.filter
              (fun p => deleteEligible 1 7 (3600000000000 * 1000) p.1 p.2)).map
              (fun p => p.2.name)).takeWhile
            (fun n =>
              !decide (n ∈
                (Cleanup 1 1 7 (3600000000000 * 1000) [c8FileA, c8FileB]).compressed)) ∧
        ((Cleanup 1 1 7 (3600000000000 * 1000) [c8FileA, c8FileB]).errored = true ↔
          ∃ p ∈ [c8FileA, c8FileB].enum,
            deleteEligible 1 7 (3600000000000 * 1000) p.1 p.2 = true ∧
              p.2.name ∈
                (Cleanup 1 1 7 (3600000000000 * 1000) [c8FileA, c8FileB]).compressed)) := by
  have hs : List.Sorted (fun a b => b.modTimeNs ≤ a.modTimeNs) [c8FileA, c8FileB] := by
    simp [List.sorted_cons, c8FileA, c8FileB]
  have hl : ∀ f ∈ [c8FileA, c8FileB], hasSuffix f.name ".log" = true := by decide
  exact ⟨⟨hs, hl⟩,
    cleanup_retention_amended 1 1 7 (3600000000000 * 1000) [c8FileA, c8FileB] hs hl⟩

/-- Witness for C5 at a concrete input: with threshold Info, an Error
event passes the filter (and indeed Info ≤ Error in the level order). -/
theorem severity_filter_iff_witness :
    slogLog .Info .Error true 0 "boom" [] ≠ .filtered ↔
      levelOrder .Info ≤ levelOrder .Error :=
  severity_filter_iff .Info .Error true 0 "boom" []

/-- Witness for C6 at concrete inputs (threshold Debug): an Error event's
outcome ignores the sampler and is emitted even when the sampler rejects,
while an Info event with a rejecting sampler is dropped. -/
theorem error_fatal_bypass_sampler_witness :
    (∀ sampleOK : Bool,
        slogLog .Debug .Error sampleOK 0 "e" [] =
          slogLog .Debug .Error true 0 "e" []) ∧
      slogLog .Debug .Error false 0 "e" [] = .emit (mkRecord 0 .Error "e" []) ∧
      slogLog .Debug .Info false 0 "i" [] = .sampledOut :=
  ⟨((error_fatal_bypass_sampler .Debug .Error 0 "e" []).1 (Or.inl rfl)).1,
    ((error_fatal_bypass_sampler .Debug .Error 0 "e" []).1 (Or.inl rfl)).2 rfl,
    (error_fatal_bypass_sampler .Debug .Info 0 "i" []).2 (Or.inr (Or.inl rfl)) rfl⟩

end Gokit
